import Mathlib

/-!
Verification development for the Lunar X core: shallow embeddings of the
connection manager (src/core/connection.py), the event classification
pipeline (src/core/events.py, src/core/bot.py) and the plugin lifecycle
manager (src/core/plugin_manager.py), together with theorems settling the
specification claims about them.
-/

namespace LunarX

/-! ### Event classification (src/core/events.py, EventFactory.create_event)

The factory inspects the tag fields of a decoded frame.  We embed the frame
as the record of exactly those tag fields the factory reads. -/

structure RawData where
  post_type : Option String
  message_type : Option String
  notice_type : Option String
  request_type : Option String
  meta_event_type : Option String
  sub_type : Option String
deriving DecidableEq, Repr

/-- The event variants produced by `EventFactory.create_event`. -/
inductive EventKind where
  | privateMsg | groupMsg | genericMsg
  | groupUpload | groupAdmin | groupIncrease | groupDecrease | groupBan
  | friendAdd | groupRecall | friendRecall | groupPoke | groupHonor | genericNotice
  | friendReq | groupAddReq | groupInviteReq | genericRequest
  | heartbeat | lifecycleMeta | genericMeta
  | base
deriving DecidableEq, Repr

/-- Embedding of `EventFactory.create_event` (src/core/events.py, lines
421-497): the two-level if/elif dispatch on `post_type` and the
per-category subtype tag. -/
def createEvent (d : RawData) : EventKind :=
  if d.post_type = some "message" then
    if d.message_type = some "private" then .privateMsg
    else if d.message_type = some "group" then .groupMsg
    else .genericMsg
  else if d.post_type = some "notice" then
    if d.notice_type = some "group_upload" then .groupUpload
    else if d.notice_type = some "group_admin" then .groupAdmin
    else if d.notice_type = some "group_increase" then .groupIncrease
    else if d.notice_type = some "group_decrease" then .groupDecrease
    else if d.notice_type = some "group_ban" then .groupBan
    else if d.notice_type = some "friend_add" then .friendAdd
    else if d.notice_type = some "group_recall" then .groupRecall
    else if d.notice_type = some "friend_recall" then .friendRecall
    else if d.notice_type = some "notify" ∧ d.sub_type = some "poke" then .groupPoke
    else if d.notice_type = some "notify" ∧ d.sub_type = some "honor" then .groupHonor
    else .genericNotice
  else if d.post_type = some "request" then
    if d.request_type = some "friend" then .friendReq
    else if d.request_type = some "group" then
      if d.sub_type = some "add" then .groupAddReq
      else if d.sub_type = some "invite" then .groupInviteReq
      else .genericRequest
    else .genericRequest
  else if d.post_type = some "meta_event" then
    if d.meta_event_type = some "heartbeat" then .heartbeat
    else if d.meta_event_type = some "lifecycle" then .lifecycleMeta
    else .genericMeta
  else .base

/-- Spec-side classification: a two-level table lookup.  A recognized
(category, subtype) pair yields its specific variant; an unrecognized
subtype under a recognized category falls back to that category's generic
variant via `Option.getD`; an unrecognized category yields the minimal
untyped `base` event.  Stated from the specification's words, to be
compared with `createEvent`. -/
def classifySpec (d : RawData) : EventKind :=
  if d.post_type = some "message" then
    (if d.message_type = some "private" then some EventKind.privateMsg
     else if d.message_type = some "group" then some EventKind.groupMsg
     else none).getD .genericMsg
  else if d.post_type = some "notice" then
    (if d.notice_type = some "group_upload" then some EventKind.groupUpload
     else if d.notice_type = some "group_admin" then some EventKind.groupAdmin
     else if d.notice_type = some "group_increase" then some EventKind.groupIncrease
     else if d.notice_type = some "group_decrease" then some EventKind.groupDecrease
     else if d.notice_type = some "group_ban" then some EventKind.groupBan
     else if d.notice_type = some "friend_add" then some EventKind.friendAdd
     else if d.notice_type = some "group_recall" then some EventKind.groupRecall
     else if d.notice_type = some "friend_recall" then some EventKind.friendRecall
     else if d.notice_type = some "notify" ∧ d.sub_type = some "poke" then some EventKind.groupPoke
     else if d.notice_type = some "notify" ∧ d.sub_type = some "honor" then some EventKind.groupHonor
     else none).getD .genericNotice
  else if d.post_type = some "request" then
    (if d.request_type = some "friend" then some EventKind.friendReq
     else if d.request_type = some "group" then
       (if d.sub_type = some "add" then some EventKind.groupAddReq
        else if d.sub_type = some "invite" then some EventKind.groupInviteReq
        else none)
     else none).getD .genericRequest
  else if d.post_type = some "meta_event" then
    (if d.meta_event_type = some "heartbeat" then some EventKind.heartbeat
     else if d.meta_event_type = some "lifecycle" then some EventKind.lifecycleMeta
     else none).getD .genericMeta
  else .base

/-! ### Derived plain text (src/core/events.py, MessageEvent.get_text) -/

/-- A decoded message segment (src/core/message.py).  `get_text` only
distinguishes text, at, image, reply, and everything else by its type tag. -/
inductive Segment where
  | textSeg (s : String)
  | atSeg (qq : String)
  | imageSeg (file : String)
  | replySeg (id : String)
  | otherSeg (ty : String)
deriving DecidableEq, Repr

/-- Embedding of the loop body of `MessageEvent.get_text` (src/core/events.py,
lines 93-106): one rendered part per segment, appended in order. -/
def getTextParts : List Segment → List String
  | [] => []
  | seg :: rest =>
    (match seg with
     | .textSeg s => s
     | .atSeg qq => "@" ++ qq
     | .imageSeg _ => "[图片]"
     | .replySeg _ => "[回复]"
     | .otherSeg ty => "[" ++ ty ++ "]") :: getTextParts rest

/-- Embedding of `MessageEvent.get_text`: the parts are joined by
`' '.join(...)`. -/
def getText (msg : List Segment) : String :=
  String.intercalate " " (getTextParts msg)

/-- Spec-side per-segment rendering, stated on its own for comparison: text
segments contribute their content, image and reply segments contribute a
fixed token, at segments contribute the target id after an at sign, other
segments contribute their bracketed type tag. -/
def segmentPart : Segment → String
  | .textSeg s => s
  | .atSeg qq => "@" ++ qq
  | .imageSeg _ => "[图片]"
  | .replySeg _ => "[回复]"
  | .otherSeg ty => "[" ++ ty ++ "]"

/-! ### Command extraction (src/core/bot.py, LunarBot._handle_message_event) -/

/-- The whitespace set of Python's `str.strip()`. -/
def pyWhitespace (c : Char) : Bool :=
  c = ' ' || c = '\t' || c = '\n' || c = '\r' || c = '\x0b' || c = '\x0c'

/-- Python `s.strip()`: remove leading and trailing whitespace. -/
def pyStrip (s : String) : String :=
  ⟨((s.data.dropWhile pyWhitespace).reverse.dropWhile pyWhitespace).reverse⟩

/-- Python `s.split(" ", 1)`: split at the first space character, if any. -/
def splitOnceSpace (s : String) : String × Option String :=
  match s.data.span (fun c => !(c = ' ')) with
  | (before, []) => (⟨before⟩, none)
  | (before, _ :: rest) => (⟨before⟩, some ⟨rest⟩)

/-- Splitting at the first whitespace character (what the specification
sentence describes), for comparison with the code's space-only split. -/
def splitOnceWhitespace (s : String) : String × Option String :=
  match s.data.span (fun c => !(pyWhitespace c)) with
  | (before, []) => (⟨before⟩, none)
  | (before, _ :: rest) => (⟨before⟩, some ⟨rest⟩)

/-- The command-extraction fields `_handle_message_event` stores on the
event. -/
structure CommandInfo where
  is_command : Bool
  command : Option String
  args : Option String
  processed_text : Option String
deriving DecidableEq, Repr

/-- Python `text.startswith(kw)`, on the character sequences. -/
def pyStartsWith (text kw : String) : Bool :=
  kw.data.isPrefixOf text.data

/-- Python `text[n:]`, on the character sequence. -/
def pyDrop (text : String) (n : Nat) : String :=
  ⟨text.data.drop n⟩

/-- Embedding of the command-extraction part of
`LunarBot._handle_message_event` (src/core/bot.py, lines 96-128): when the
derived text is nonempty and starts with the trigger keyword, the remainder
is stripped and split at the first space; otherwise the whole text becomes
`processed_text`. -/
def handleMessageText (kw : String) (text : String) : CommandInfo :=
  if text ≠ "" ∧ pyStartsWith text kw then
    let commandFull := pyStrip (pyDrop text kw.data.length)
    let parts := splitOnceSpace commandFull
    let cmd := parts.1
    let args := parts.2.getD ""
    ⟨true, some cmd, some args, some args⟩
  else
    ⟨false, none, none, some text⟩

/-- Spec-side characterization of the extraction, phrased with
`takeWhile`/`dropWhile` at the space character, for comparison with
`handleMessageText`. -/
def extractSpec (kw : String) (text : String) : CommandInfo :=
  if text ≠ "" ∧ pyStartsWith text kw then
    let r := pyStrip (pyDrop text kw.data.length)
    let cmd : String := ⟨r.data.takeWhile (fun c => !(c = ' '))⟩
    let rest : String :=
      if r.data.any (fun c => c = ' ') then ⟨(r.data.dropWhile (fun c => !(c = ' '))).drop 1⟩
      else ""
    ⟨true, some cmd, some rest, some rest⟩
  else
    ⟨false, none, none, some text⟩

/-! ### Supporting lemmas -/

theorem getTextParts_eq_map (l : List Segment) : getTextParts l = l.map segmentPart := by
  induction l with
  | nil => rfl
  | cons seg rest ih => cases seg <;> simp [getTextParts, segmentPart, ih]

theorem dropWhile_space_cases (l : List Char) :
    (l.dropWhile (fun c => !(c = ' ')) = [] ∧ l.any (fun c => c = ' ') = false)
    ∨ (l.dropWhile (fun c => !(c = ' '))
          = ' ' :: (l.dropWhile (fun c => !(c = ' '))).drop 1
        ∧ l.any (fun c => c = ' ') = true) := by
  induction l with
  | nil => simp
  | cons c rest ih =>
    by_cases hc : c = ' '
    · subst hc
      right
      simp [List.dropWhile]
    · rcases ih with ⟨h1, h2⟩ | ⟨h1, h2⟩
      · left
        simp [List.dropWhile, hc, h1, h2]
      · right
        refine ⟨?_, by simp [hc, h2]⟩
        simpa [List.dropWhile, hc] using h1

theorem splitOnceSpace_spec (s : String) :
    splitOnceSpace s
      = (⟨s.data.takeWhile (fun c => !(c = ' '))⟩,
         if s.data.any (fun c => c = ' ') then
           some ⟨(s.data.dropWhile (fun c => !(c = ' '))).drop 1⟩
         else none) := by
  unfold splitOnceSpace
  rw [List.span_eq_take_drop]
  rcases dropWhile_space_cases s.data with ⟨h1, h2⟩ | ⟨h1, h2⟩
  · rw [h1, h2]
    simp
  · rw [h1, h2]
    simp

/-! ### Theorems for the classification and text-derivation claims -/

set_option maxHeartbeats 4000000 in
/-- C7: event classification is total and two-level: `create_event` agrees
everywhere with the spec-side table lookup in which an unrecognized subtype
under a recognized category (message, notice, request, meta) falls back to
that category's generic variant, and a wholly unrecognized category falls
back to the minimal untyped base event; being a total function, it never
fails. -/
theorem createEvent_eq_classifySpec (d : RawData) : createEvent d = classifySpec d := by
  unfold createEvent classifySpec
  by_cases h1 : d.post_type = some "message"
  · rw [if_pos h1, if_pos h1]
    split_ifs <;> rfl
  · rw [if_neg h1, if_neg h1]
    by_cases h2 : d.post_type = some "notice"
    · rw [if_pos h2, if_pos h2]
      split_ifs <;> rfl
    · rw [if_neg h2, if_neg h2]
      by_cases h3 : d.post_type = some "request"
      · rw [if_pos h3, if_pos h3]
        split_ifs <;> rfl
      · rw [if_neg h3, if_neg h3]
        by_cases h4 : d.post_type = some "meta_event"
        · rw [if_pos h4, if_pos h4]
          split_ifs <;> rfl
        · rw [if_neg h4, if_neg h4]

/-- C9 counterexample: the derived text is not the plain concatenation of
the rendered segments: two text segments "a" and "b" derive "a b" (the
parts are joined by a space), not "ab"; moreover two mention segments with
different targets render differently, so a mention segment does not
contribute one fixed placeholder token. -/
theorem getText_not_concatenation :
    getText [Segment.textSeg "a", Segment.textSeg "b"] = "a b"
    ∧ ("a b" : String) ≠ "ab"
    ∧ getText [Segment.atSeg "1"] ≠ getText [Segment.atSeg "2"] := by
  refine ⟨rfl, by decide, by decide⟩

/-- C9 (amended): the derived plain text is the space-separated join of the
per-segment renderings given by `segmentPart`; every image segment
contributes the same fixed placeholder token, and likewise every reply
segment. -/
theorem getText_spec (msg : List Segment) :
    getText msg = String.intercalate " " (msg.map segmentPart)
    ∧ (∀ f g : String, segmentPart (Segment.imageSeg f) = segmentPart (Segment.imageSeg g))
    ∧ (∀ f g : String, segmentPart (Segment.replySeg f) = segmentPart (Segment.replySeg g)) := by
  refine ⟨?_, fun f g => rfl, fun f g => rfl⟩
  rw [getText, getTextParts_eq_map]

/-- C8 counterexample: the remainder after the prefix is split at the first
space character only, not at the first whitespace character: for trigger
keyword "/" and derived text "/a	b" (a tab between a and b), the code
extracts the command "a	b" with empty argument remainder, while a split at
the first whitespace would give command "a" and remainder "b". -/
theorem handleMessageText_not_whitespace_split :
    (handleMessageText "/" "/a\tb").command = some "a\tb"
    ∧ (handleMessageText "/" "/a\tb").args = some ""
    ∧ splitOnceWhitespace (pyStrip (pyDrop "/a\tb" 1)) = ("a", some "b")
    ∧ ("a\tb" : String) ≠ "a" := by
  refine ⟨by decide, by decide, by decide, by decide⟩

/-- C8 (amended): for every trigger keyword and derived text, if the text is
nonempty and starts with the keyword, the remainder after the keyword is
stripped of surrounding whitespace and split at the first space character
into the command (stored, with `is_command` set) and the argument
remainder (empty when there is no space), which also becomes the processed
text; otherwise no command is extracted and the whole text becomes the
processed text.  `extractSpec` states this with `takeWhile`/`dropWhile`. -/
theorem handleMessageText_eq_extractSpec (kw text : String) :
    handleMessageText kw text = extractSpec kw text := by
  unfold handleMessageText extractSpec
  split_ifs with h
  · simp only [splitOnceSpace_spec]
    rcases dropWhile_space_cases (pyStrip (pyDrop text kw.data.length)).data with ⟨h1, h2⟩ | ⟨h1, h2⟩ <;>
        simp [h2] <;> split_ifs <;> rfl
  · rfl

/-! ### Dispatch (src/core/plugin_manager.py, PluginManager.handle_event and
PluginManager._sort_plugins_by_priority) -/

/-- The result of one handler invocation: a returned truthiness, or a raised
exception. -/
inductive Outcome where
  | returns (b : Bool)
  | raises
deriving DecidableEq, Repr

/-- One loaded plugin as `handle_event` sees it: its registry name, trigger
specifier, priority, which entry points the module exposes, and the
behaviour of each entry point on the event being dispatched. -/
structure Plugin where
  name : String
  trigger : String
  priority : Int
  hasOnMessage : Bool
  hasOnLunarEvent : Bool
  onMessage : Outcome
  onLunarEvent : Outcome
deriving DecidableEq, Repr

/-- The event data `handle_event` inspects: an internal lifecycle event, a
message event with its derived text and extracted command, or any other
event. -/
inductive DEvent where
  | lunarLifecycle
  | message (text : String) (isCmd : Bool) (command : String)
  | otherEvent
deriving DecidableEq, Repr

/-- Which entry point (if any) `handle_event` invokes on plugin `p` for
event `e`, and with what outcome; `none` when the plugin is skipped
(src/core/plugin_manager.py, lines 197-227).  `kw` is the configured
trigger keyword. -/
def invocation (kw : String) (e : DEvent) (p : Plugin) : Option Outcome :=
  match e with
  | .lunarLifecycle => if p.hasOnLunarEvent then some p.onLunarEvent else none
  | .message text isCmd cmd =>
      let shouldTrigger :=
        if p.trigger = "Any" then true
        else if isCmd ∧ cmd = p.trigger then true
        else if text ≠ "" ∧ pyStartsWith text (kw ++ p.trigger) then true
        else false
      if shouldTrigger ∧ p.hasOnMessage then some p.onMessage else none
  | .otherEvent =>
      if p.trigger = "Any" ∧ p.hasOnMessage then some p.onMessage else none

/-- Embedding of the dispatch walk of `handle_event` (src/core/plugin_manager.py,
lines 182-242): plugins are visited in registry order; a raised exception is
caught and the walk continues; a truthy result stops the walk with `true`;
otherwise the walk ends with `false`.  The first component records the names
of the plugins whose entry point was actually invoked, in order. -/
def handleEventAux (kw : String) (e : DEvent) : List Plugin → List String × Bool
  | [] => ([], false)
  | p :: rest =>
    match invocation kw e p with
    | none => handleEventAux kw e rest
    | some (.returns true) => ([p.name], true)
    | some (.returns false) =>
        let r := handleEventAux kw e rest
        (p.name :: r.1, r.2)
    | some .raises =>
        let r := handleEventAux kw e rest
        (p.name :: r.1, r.2)

/-- The boolean result `handle_event` returns. -/
def handleEvent (kw : String) (e : DEvent) (plugins : List Plugin) : Bool :=
  (handleEventAux kw e plugins).2

/-- Embedding of `_sort_plugins_by_priority` (src/core/plugin_manager.py,
lines 166-168): Python's `sorted` is a stable sort on the priority key,
embedded as a stable insertion sort. -/
def insertByPriority (p : Plugin) : List Plugin → List Plugin
  | [] => [p]
  | q :: rest =>
    if p.priority ≤ q.priority then p :: q :: rest else q :: insertByPriority p rest

def sortPlugins : List Plugin → List Plugin
  | [] => []
  | p :: rest => insertByPriority p (sortPlugins rest)

/-- A plugin's invocation reports "handled" for this event. -/
def handledBy (kw : String) (e : DEvent) (p : Plugin) : Bool :=
  invocation kw e p = some (.returns true)

/-- The registry name of `p` if its entry point is invoked for `e`. -/
def invokedName (kw : String) (e : DEvent) (p : Plugin) : Option String :=
  (invocation kw e p).map (fun _ => p.name)

/-- Spec-side characterization of the walk: every invoked plugin strictly
before the first "handled" one is invoked in order, the first "handled"
plugin (if any) is invoked last and the result is `true`; with no "handled"
plugin every invoked plugin is invoked and the result is `false`. -/
def traceSpec (kw : String) (e : DEvent) (l : List Plugin) : List String × Bool :=
  match l.span (fun p => !(handledBy kw e p)) with
  | (pre, []) => (pre.filterMap (invokedName kw e), false)
  | (pre, q :: _) => (pre.filterMap (invokedName kw e) ++ [q.name], true)

/-! ### Lemmas about sorting and the walk -/

theorem insertByPriority_filter_eq (p : Plugin) (l : List Plugin) (k : Int) (hp : p.priority = k) :
    (insertByPriority p l).filter (fun q => q.priority = k)
      = p :: l.filter (fun q => q.priority = k) := by
  induction l with
  | nil => simp [insertByPriority, hp]
  | cons q rest ih =>
    unfold insertByPriority
    split_ifs with hle
    · simp [hp]
    · have hq : ¬ (q.priority = k) := by
        intro hqk
        exact hle (by rw [hp, hqk])
      simp [List.filter, hq, ih]

theorem insertByPriority_filter_ne (p : Plugin) (l : List Plugin) (k : Int) (hp : ¬ p.priority = k) :
    (insertByPriority p l).filter (fun q => q.priority = k)
      = l.filter (fun q => q.priority = k) := by
  induction l with
  | nil => simp [insertByPriority, hp]
  | cons q rest ih =>
    unfold insertByPriority
    split_ifs with hle
    · simp [hp]
    · by_cases hq : q.priority = k <;> simp [List.filter, hq, ih]

/-- Equal priorities keep their relative (discovery) order: Python's
`sorted` is stable. -/
theorem sortPlugins_stable (l : List Plugin) (k : Int) :
    (sortPlugins l).filter (fun q => q.priority = k)
      = l.filter (fun q => q.priority = k) := by
  induction l with
  | nil => rfl
  | cons p rest ih =>
    unfold sortPlugins
    by_cases hp : p.priority = k
    · rw [insertByPriority_filter_eq p _ k hp, ih]
      simp [List.filter, hp]
    · rw [insertByPriority_filter_ne p _ k hp, ih]
      simp [List.filter, hp]

theorem insertByPriority_sorted (p : Plugin) (l : List Plugin)
    (hl : l.Pairwise (fun a b => a.priority ≤ b.priority)) :
    (insertByPriority p l).Pairwise (fun a b => a.priority ≤ b.priority) := by
  induction l with
  | nil => simp [insertByPriority]
  | cons q rest ih =>
    rcases List.pairwise_cons.mp hl with ⟨hq, hrest⟩
    unfold insertByPriority
    split_ifs with hle
    · refine List.pairwise_cons.mpr ⟨?_, hl⟩
      intro b hb
      rcases List.mem_cons.mp hb with hb | hb
      · exact hb ▸ hle
      · exact le_trans hle (hq b hb)
    · push_neg at hle
      refine List.pairwise_cons.mpr ⟨?_, ih hrest⟩
      intro b hb
      have hmem : b ∈ p :: rest := by
        have hperm : ∀ l', (insertByPriority p l').Perm (p :: l') := by
          intro l'
          induction l' with
          | nil => rfl
          | cons x xs ihp =>
            unfold insertByPriority
            split_ifs
            · rfl
            · exact (List.Perm.cons x ihp).trans (List.Perm.swap p x xs)
        exact (hperm rest).mem_iff.mp hb
      rcases List.mem_cons.mp hmem with hb' | hb'
      · exact hb' ▸ le_of_lt hle
      · exact hq b hb'

theorem sortPlugins_perm (l : List Plugin) : (sortPlugins l).Perm l := by
  induction l with
  | nil => rfl
  | cons p rest ih =>
    unfold sortPlugins
    have hperm : ∀ l', (insertByPriority p l').Perm (p :: l') := by
      intro l'
      induction l' with
      | nil => rfl
      | cons x xs ihp =>
        unfold insertByPriority
        split_ifs
        · rfl
        · exact (List.Perm.cons x ihp).trans (List.Perm.swap p x xs)
    exact (hperm (sortPlugins rest)).trans (List.Perm.cons p ih)

/-- The dispatch order is ascending in priority. -/
theorem sortPlugins_sorted (l : List Plugin) :
    (sortPlugins l).Pairwise (fun a b => a.priority ≤ b.priority) := by
  induction l with
  | nil => exact List.Pairwise.nil
  | cons p rest ih => exact insertByPriority_sorted p _ ih

theorem handleEventAux_eq_traceSpec (kw : String) (e : DEvent) (l : List Plugin) :
    handleEventAux kw e l = traceSpec kw e l := by
  induction l with
  | nil => rfl
  | cons p rest ih =>
    unfold handleEventAux traceSpec
    by_cases hh : handledBy kw e p
    · have : invocation kw e p = some (.returns true) := by
        simpa [handledBy] using hh
      rw [this, List.span_eq_take_drop]
      simp [List.takeWhile, List.dropWhile, hh]
    · have hspan :
          (p :: rest).span (fun q => !(handledBy kw e q))
            = (p :: rest.takeWhile (fun q => !(handledBy kw e q)),
               rest.dropWhile (fun q => !(handledBy kw e q))) := by
        simp [List.span_eq_take_drop, List.takeWhile, List.dropWhile, hh]
      rcases hinv : invocation kw e p with _ | out
      · have : handleEventAux kw e rest = traceSpec kw e rest := ih
        rw [traceSpec] at this
        rw [this]
        rw [hspan]
        rcases hdw : rest.dropWhile (fun q => !(handledBy kw e q)) with _ | ⟨q, tl⟩ <;>
          simp [hdw, List.span_eq_take_drop, invokedName, hinv]
      · rcases out with b | _
        · rcases b with _ | _
          · have : handleEventAux kw e rest = traceSpec kw e rest := ih
            rw [traceSpec] at this
            rw [this]
            rw [hspan]
            rcases hdw : rest.dropWhile (fun q => !(handledBy kw e q)) with _ | ⟨q, tl⟩ <;>
              simp [hdw, List.span_eq_take_drop, invokedName, hinv]
          · exact absurd (by simp [handledBy, hinv]) hh
        · have : handleEventAux kw e rest = traceSpec kw e rest := ih
          rw [traceSpec] at this
          rw [this]
          rw [hspan]
          rcases hdw : rest.dropWhile (fun q => !(handledBy kw e q)) with _ | ⟨q, tl⟩ <;>
            simp [hdw, List.span_eq_take_drop, invokedName, hinv]

theorem dropWhile_head_mem {α : Type _} (p : α → Bool) :
    ∀ (l : List α) (q : α) (tl : List α), l.dropWhile p = q :: tl → q ∈ l ∧ p q = false := by
  intro l
  induction l with
  | nil =>
    intro q tl h
    simp [List.dropWhile] at h
  | cons x xs ih =>
    intro q tl h
    rw [List.dropWhile_cons] at h
    split_ifs at h with hx
    · rcases ih q tl h with ⟨hmem, hpq⟩
      exact ⟨List.mem_cons_of_mem _ hmem, hpq⟩
    · injection h with h1 h2
      subst h1
      exact ⟨List.mem_cons_self _ _, by simpa using hx⟩

theorem traceSpec_result (kw : String) (e : DEvent) (l : List Plugin) :
    (traceSpec kw e l).2 = l.any (handledBy kw e) := by
  unfold traceSpec
  rw [List.span_eq_take_drop]
  rcases hdw : l.dropWhile (fun q => !(handledBy kw e q)) with _ | ⟨q, tl⟩
  · have hall := List.dropWhile_eq_nil_iff.mp hdw
    have : l.any (handledBy kw e) = false := by
      rw [List.any_eq_false]
      intro x hx
      simpa using hall x hx
    simp [this]
  · rcases dropWhile_head_mem _ l q tl hdw with ⟨hmem, hq⟩
    have : l.any (handledBy kw e) = true := by
      rw [List.any_eq_true]
      exact ⟨q, hmem, by simpa using hq⟩
    simp [this]

/-- C2: for every registry snapshot and event, the dispatch order produced
by `_sort_plugins_by_priority` is ascending in priority with equal
priorities kept in discovery order (hence a deterministic function of the
snapshot's priorities), the walk of `handle_event` invokes handlers in that
order and stops at the first whose invocation reports "handled", returning
`true`; if no handler reports "handled" it returns `false` (equivalently,
the result is `true` exactly when some handler in the snapshot reports
"handled"). -/
theorem handle_event_priority_dispatch (kw : String) (e : DEvent) (ps : List Plugin) :
    (sortPlugins ps).Pairwise (fun a b => a.priority ≤ b.priority)
    ∧ (∀ k : Int, (sortPlugins ps).filter (fun q => q.priority = k)
        = ps.filter (fun q => q.priority = k))
    ∧ handleEventAux kw e (sortPlugins ps) = traceSpec kw e (sortPlugins ps)
    ∧ (handleEvent kw e (sortPlugins ps) = (sortPlugins ps).any (handledBy kw e)) := by
  refine ⟨sortPlugins_sorted ps, fun k => sortPlugins_stable ps k,
    handleEventAux_eq_traceSpec kw e _, ?_⟩
  rw [handleEvent, handleEventAux_eq_traceSpec, traceSpec_result]

/-- C5: a handler invocation that raises is caught and treated as a
non-match: the raising handler is invoked (and logged) but the walk
continues with the remaining handlers, and the final dispatch result is
exactly the result the remaining chain produces; a raising handler anywhere
in the chain never changes the dispatch result of the rest, so neither the
remaining handlers nor any later dispatch (dispatch being a pure function of
snapshot and event) is aborted. -/
theorem handler_exception_isolated (kw : String) (e : DEvent) (l₁ l₂ : List Plugin) (p : Plugin)
    (h : invocation kw e p = some .raises) :
    handleEventAux kw e (p :: l₂)
      = (p.name :: (handleEventAux kw e l₂).1, (handleEventAux kw e l₂).2)
    ∧ handleEvent kw e (l₁ ++ p :: l₂) = handleEvent kw e (l₁ ++ l₂) := by
  constructor
  · simp [handleEventAux, h]
  · induction l₁ with
    | nil => simp [handleEvent, handleEventAux, h]
    | cons x xs ih =>
      simp only [List.cons_append]
      rcases hx : invocation kw e x with _ | out
      · simp only [handleEvent, handleEventAux, hx]
        exact ih
      · rcases out with b | _
        · rcases b
          · simp only [handleEvent, handleEventAux, hx]
            exact ih
          · simp [handleEvent, handleEventAux, hx]
        · simp only [handleEvent, handleEventAux, hx]
          exact ih

/-- A plugin whose entry point raises on every event, for the C5 witness. -/
def cBad : Plugin :=
  ⟨"bad", "Any", 1, true, true, Outcome.raises, Outcome.raises⟩

/-- A plugin whose entry point reports "handled", for the C5 witness. -/
def cGood : Plugin :=
  ⟨"good", "Any", 2, true, true, Outcome.returns true, Outcome.returns true⟩

theorem handler_exception_isolated_witness :
    invocation "/" DEvent.otherEvent cBad = some Outcome.raises
    ∧ (handleEventAux "/" DEvent.otherEvent (cBad :: [cGood])
        = (cBad.name :: (handleEventAux "/" DEvent.otherEvent [cGood]).1,
           (handleEventAux "/" DEvent.otherEvent [cGood]).2)
       ∧ handleEvent "/" DEvent.otherEvent ([] ++ cBad :: [cGood])
          = handleEvent "/" DEvent.otherEvent ([] ++ [cGood])) :=
  ⟨by decide, handler_exception_isolated "/" DEvent.otherEvent [] [cGood] cBad (by decide)⟩

/-! ### Connection manager (src/core/connection.py, WebSocketConnection) -/

/-- The error taxonomy callers of the connection can observe on a pending
request. -/
inductive ConnErr where
  | connectionClosed
  | serverError (msg : String)
  | otherErr
deriving DecidableEq, Repr

/-- The state of one pending-request future (`asyncio.Future`). -/
inductive FutureState where
  | pending
  | resolvedOk
  | failed (e : ConnErr)
  | cancelled
deriving DecidableEq, Repr

/-- `future.done()`: true for a resolved, failed or cancelled future. -/
def FutureState.isDone : FutureState → Bool
  | .pending => false
  | _ => true

/-- Embedding of the pending-requests loop of `WebSocketConnection.close`
(src/core/connection.py, lines 266-269): each future that is not done is
cancelled (`future.cancel()`), done futures are left alone; the second
component is the list of ids on which `cancel` was called, in order. -/
def closeCancelFutures : List (String × FutureState) → List (String × FutureState) × List String
  | [] => ([], [])
  | (id, f) :: rest =>
    let r := closeCancelFutures rest
    if f.isDone then ((id, f) :: r.1, r.2)
    else ((id, FutureState.cancelled) :: r.1, id :: r.2)

/-- The observable effect of `close` on the pending-request machinery: the
final states of the futures the callers hold, the pending-request table
afterwards, and the cancellation log. -/
structure CloseEffect where
  futures : List (String × FutureState)
  table : List (String × FutureState)
  cancelLog : List String
deriving DecidableEq, Repr

/-- Embedding of `WebSocketConnection.close`, lines 266-269: the cancel loop
followed by `self._pending_requests.clear()`. -/
def closePendingRequests (t : List (String × FutureState)) : CloseEffect :=
  ⟨(closeCancelFutures t).1, [], (closeCancelFutures t).2⟩

theorem closeCancelFutures_fst (t : List (String × FutureState)) :
    (closeCancelFutures t).1
      = t.map (fun e => (e.1, if e.2.isDone then e.2 else FutureState.cancelled)) := by
  induction t with
  | nil => rfl
  | cons e rest ih =>
    rcases e with ⟨id, f⟩
    unfold closeCancelFutures
    rcases hf : f.isDone with _ | _ <;> simp [hf, ih]

theorem closeCancelFutures_snd (t : List (String × FutureState)) :
    (closeCancelFutures t).2
      = (t.filter (fun e => !(e.2.isDone))).map Prod.fst := by
  induction t with
  | nil => rfl
  | cons e rest ih =>
    rcases e with ⟨id, f⟩
    unfold closeCancelFutures
    rcases hf : f.isDone with _ | _ <;> simp [hf, ih, List.filter]

theorem nodup_keys_unique {t : List (String × FutureState)}
    (hkeys : (t.map Prod.fst).Nodup)
    {id : String} {f g : FutureState} (hf : (id, f) ∈ t) (hg : (id, g) ∈ t) : f = g := by
  induction t with
  | nil => simp at hf
  | cons e rest ih =>
    rw [List.map_cons, List.nodup_cons] at hkeys
    rcases hkeys with ⟨hnot, hrest⟩
    rcases List.mem_cons.mp hf with hf' | hf' <;> rcases List.mem_cons.mp hg with hg' | hg'
    · exact congrArg Prod.snd (hf'.trans hg'.symm)
    · exfalso
      apply hnot
      have he1 : e.1 = id := by rw [← hf']
      rw [he1]
      exact List.mem_map.mpr ⟨(id, g), hg', rfl⟩
    · exfalso
      apply hnot
      have he1 : e.1 = id := by rw [← hg']
      rw [he1]
      exact List.mem_map.mpr ⟨(id, f), hf', rfl⟩
    · exact ih hrest hf' hg'

/-- C1 counterexample: `close` does not fail a pending request with a
ConnectionClosed error; it cancels the future.  With a single pending
request registered, the caller's future ends cancelled, and no future in
the table ends in the failed-with-ConnectionClosed state. -/
theorem close_not_connectionClosed :
    (closePendingRequests [("abc", FutureState.pending)]).futures
      = [("abc", FutureState.cancelled)]
    ∧ ("abc", FutureState.failed ConnErr.connectionClosed)
        ∉ (closePendingRequests [("abc", FutureState.pending)]).futures
    ∧ FutureState.cancelled ≠ FutureState.failed ConnErr.connectionClosed := by
  refine ⟨rfl, by decide, by decide⟩

/-- C1 (amended): for every pending-request table with distinct correlation
ids, `close` empties the table, cancels each not-yet-done future exactly
once (the caller observes a cancellation, not a ConnectionClosed failure),
and leaves already-done futures untouched (cancelled zero times). -/
theorem close_cancels_pending (t : List (String × FutureState))
    (hkeys : (t.map Prod.fst).Nodup) :
    (closePendingRequests t).table = []
    ∧ (closePendingRequests t).futures
        = t.map (fun e => (e.1, if e.2.isDone then e.2 else FutureState.cancelled))
    ∧ (∀ id, (id, FutureState.pending) ∈ t →
        (closePendingRequests t).cancelLog.count id = 1)
    ∧ (∀ id f, (id, f) ∈ t → f.isDone = true →
        (closePendingRequests t).cancelLog.count id = 0) := by
  have hlog : (closePendingRequests t).cancelLog
      = (t.filter (fun e => !(e.2.isDone))).map Prod.fst := closeCancelFutures_snd t
  have hsub : ((t.filter (fun e => !(e.2.isDone))).map Prod.fst).Sublist (t.map Prod.fst) :=
    (List.filter_sublist t).map Prod.fst
  have hnodup : ((t.filter (fun e => !(e.2.isDone))).map Prod.fst).Nodup :=
    hkeys.sublist hsub
  refine ⟨rfl, closeCancelFutures_fst t, ?_, ?_⟩
  · intro id hmem
    rw [hlog]
    have hmemf : (id, FutureState.pending) ∈ t.filter (fun e => !(e.2.isDone)) := by
      rw [List.mem_filter]
      exact ⟨hmem, by rfl⟩
    exact List.count_eq_one_of_mem hnodup (List.mem_map_of_mem Prod.fst hmemf)
  · intro id f hmem hdone
    rw [hlog]
    rw [List.count_eq_zero]
    intro hin
    rcases List.mem_map.mp hin with ⟨⟨id', g⟩, hgf, hfst⟩
    rcases List.mem_filter.mp hgf with ⟨hgt, hgnd⟩
    have : id' = id := hfst
    subst this
    have : g = f := nodup_keys_unique hkeys hgt hmem
    subst this
    rw [hdone] at hgnd
    simp at hgnd

theorem close_cancels_pending_witness :
    (([("a", FutureState.pending), ("b", FutureState.resolvedOk)].map
        (Prod.fst (α := String) (β := FutureState))).Nodup)
    ∧ (closePendingRequests [("a", FutureState.pending), ("b", FutureState.resolvedOk)]).table
        = [] :=
  ⟨by decide, (close_cancels_pending _ (by decide)).1⟩

/-! ### send with a response await (src/core/connection.py, WebSocketConnection.send) -/

/-- What the transport delivers for a given correlation id within the
timeout window: a matching ok response, a matching error-status response,
or nothing at all. -/
inductive Arrival where
  | okResp
  | errResp (msg : String)
  | noResp
deriving DecidableEq, Repr

/-- The outcome `send(data, wait_for_response=True)` produces for its
caller. -/
inductive SendOutcome where
  | noConn
  | okData
  | timeoutErr
  | serverErr (msg : String)
  | closedErr
deriving DecidableEq, Repr

/-- Embedding of `WebSocketConnection.send` with `wait_for_response=True`
(src/core/connection.py, lines 177-237): with no websocket a
ConnectionError is raised; otherwise a fresh correlation id is registered
as pending, the payload is sent (`wsSendClosed` embeds a ConnectionClosed
raised by the transport send), and the caller awaits the future with the
request timeout: a matching response resolves it, an error-status response
fails it, and no response within the window raises TimeoutError after
`asyncio.wait_for` cancels the future; in every path the except/finally
blocks remove the id from the pending table once the future is done. -/
def sendAwait (connected : Bool) (t : List (String × FutureState)) (freshId : String)
    (wsSendClosed : Bool) (arrival : Arrival) :
    SendOutcome × List (String × FutureState) :=
  if connected = false then (.noConn, t)
  else
    let t1 := t ++ [(freshId, FutureState.pending)]
    if wsSendClosed then
      (.closedErr, t1.eraseP (fun e => e.1 == freshId))
    else
      match arrival with
      | .okResp => (.okData, t1.eraseP (fun e => e.1 == freshId))
      | .errResp m => (.serverErr m, t1.eraseP (fun e => e.1 == freshId))
      | .noResp => (.timeoutErr, t1.eraseP (fun e => e.1 == freshId))

theorem eraseP_fresh_append (t : List (String × FutureState)) (freshId : String)
    (x : FutureState) (hfresh : freshId ∉ t.map Prod.fst) :
    (t ++ [(freshId, x)]).eraseP (fun e => e.1 == freshId) = t := by
  induction t with
  | nil => simp [List.eraseP]
  | cons e rest ih =>
    rcases e with ⟨id, f⟩
    have hne : ¬ (id = freshId) := by
      intro heq
      apply hfresh
      rw [← heq]
      exact List.mem_map_of_mem Prod.fst (List.mem_cons_self _ _)
    have hfresh' : freshId ∉ rest.map Prod.fst := by
      intro hmem
      exact hfresh (List.mem_cons_of_mem _ hmem)
    rw [List.cons_append, List.eraseP_cons]
    have hb : (id == freshId) = false := by
      simp [hne]
    rw [hb]
    simp [ih hfresh']

/-- C3: a `send` awaiting a response on a live connection whose correlation
id receives no matching inbound response within the timeout window fails
with a Timeout error (never any other outcome), and afterwards the
correlation id is no longer present in the pending-request table. -/
theorem send_timeout_clears_pending (t : List (String × FutureState)) (freshId : String)
    (hfresh : freshId ∉ t.map Prod.fst) :
    sendAwait true t freshId false Arrival.noResp = (SendOutcome.timeoutErr, t)
    ∧ freshId ∉ ((sendAwait true t freshId false Arrival.noResp).2.map Prod.fst) := by
  have hrun : sendAwait true t freshId false Arrival.noResp = (SendOutcome.timeoutErr, t) := by
    unfold sendAwait
    simp [eraseP_fresh_append t freshId FutureState.pending hfresh]
  exact ⟨hrun, by rw [hrun]; exact hfresh⟩

theorem send_timeout_clears_pending_witness :
    ("y" ∉ [("x", FutureState.pending)].map (Prod.fst (α := String) (β := FutureState)))
    ∧ sendAwait true [("x", FutureState.pending)] "y" false Arrival.noResp
        = (SendOutcome.timeoutErr, [("x", FutureState.pending)]) :=
  ⟨by decide, (send_timeout_clears_pending [("x", FutureState.pending)] "y" (by decide)).1⟩

/-! ### connect (src/core/connection.py, WebSocketConnection.connect) -/

/-- One observation of a (possibly still running) execution of the
`connect` retry loop: the returned value if the loop has returned within
the observed number of iterations, the number of connection attempts made,
and the waits slept between consecutive attempts, in order. -/
structure ConnectRun where
  result : Option Bool
  attempts : Nat
  waits : List Nat
deriving DecidableEq, Repr

/-- Embedding of the retry loop of `WebSocketConnection.connect`
(src/core/connection.py, lines 23-82).  `retries` is the loop counter;
`closing retries` is the value of `self._is_closing` observed at the top of
that iteration; `attemptOk retries` is whether the `websockets.connect`
attempt of that iteration succeeds.  On initial connect
(`isReconnect = false`) the loop runs while `retries < maxRetries`; on
reconnect the bound is infinite.  After a failed attempt the counter is
incremented and, if another attempt is allowed, the loop sleeps
`min(2 ** retries, 60)` seconds.  `fuel` bounds the number of observed
iterations; a run that has not returned within the fuel has result
`none`. -/
def connectLoop (isReconnect : Bool) (maxRetries : Nat) (closing : Nat → Bool)
    (attemptOk : Nat → Bool) : Nat → Nat → ConnectRun
  | 0, _ => ⟨none, 0, []⟩
  | fuel + 1, retries =>
    if isReconnect = false ∧ maxRetries ≤ retries then ⟨some false, 0, []⟩
    else if closing retries then ⟨some false, 0, []⟩
    else if attemptOk retries then ⟨some true, 1, []⟩
    else if retries + 1 < maxRetries ∨ isReconnect = true then
      let r := connectLoop isReconnect maxRetries closing attemptOk fuel (retries + 1)
      ⟨r.result, r.attempts + 1, min (2 ^ (retries + 1)) 60 :: r.waits⟩
    else ⟨some false, 1, []⟩

theorem connectLoop_initial_terminates (m : Nat) (closing attemptOk : Nat → Bool) :
    ∀ (fuel retries : Nat), m ≤ retries + fuel →
      ((connectLoop false m closing attemptOk (fuel + 1) retries).result).isSome = true := by
  intro fuel
  induction fuel with
  | zero =>
    intro retries h
    have hle : m ≤ retries := by omega
    unfold connectLoop
    simp [hle]
  | succ n ih =>
    intro retries h
    unfold connectLoop
    split_ifs with h1 h2 h3 h4
    · rfl
    · rfl
    · rfl
    · exact ih (retries + 1) (by omega)
    · rfl

theorem connectLoop_initial_attempts (m : Nat) (closing attemptOk : Nat → Bool) :
    ∀ (fuel retries : Nat), retries ≤ m →
      (connectLoop false m closing attemptOk fuel retries).attempts + retries ≤ m := by
  intro fuel
  induction fuel with
  | zero =>
    intro retries h
    simpa [connectLoop] using h
  | succ n ih =>
    intro retries h
    unfold connectLoop
    split_ifs with h1 h2 h3 h4
    · simpa using h
    · simpa using h
    · have : ¬ (m ≤ retries) := by
        intro hc
        exact h1 ⟨rfl, hc⟩
      simpa using (by omega : 1 + retries ≤ m)
    · have hlt : retries + 1 < m := by
        rcases h4 with h4 | h4
        · exact h4
        · exact absurd h4 (by simp)
      have := ih (retries + 1) (by omega)
      simpa using (by omega : ((connectLoop false m closing attemptOk n (retries + 1)).attempts + 1) + retries ≤ m)
    · have : ¬ (m ≤ retries) := by
        intro hc
        exact h1 ⟨rfl, hc⟩
      simpa using (by omega : 1 + retries ≤ m)

theorem connectLoop_initial_allfail (m : Nat) :
    ∀ (fuel retries : Nat), retries < m → m - retries ≤ fuel →
      connectLoop false m (fun _ => false) (fun _ => false) fuel retries
        = ⟨some false, m - retries,
           (List.range' (retries + 1) (m - 1 - retries)).map (fun i => min (2 ^ i) 60)⟩ := by
  intro fuel
  induction fuel with
  | zero =>
    intro retries h1 h2
    omega
  | succ n ih =>
    intro retries h1 h2
    unfold connectLoop
    have hle : ¬ (false = false ∧ m ≤ retries) := by
      intro hc
      omega
    rw [if_neg hle, if_neg (by simp), if_neg (by simp)]
    by_cases hrec : retries + 1 < m
    · rw [if_pos (Or.inl hrec)]
      rw [ih (retries + 1) hrec (by omega)]
      have hatt : (m - (retries + 1)) + 1 = m - retries := by omega
      have hw : m - 1 - retries = (m - 1 - (retries + 1)) + 1 := by omega
      rw [hw, List.range'_succ]
      simp [hatt]
    · have hm : retries + 1 = m := by omega
      rw [if_neg (by simp [hrec])]
      have hatt : m - retries = 1 := by omega
      have hw : m - 1 - retries = 0 := by omega
      simp [hatt, hw]

theorem connectLoop_reconnect_allfail (m : Nat) :
    ∀ (fuel retries : Nat),
      connectLoop true m (fun _ => false) (fun _ => false) fuel retries
        = ⟨none, fuel, (List.range' (retries + 1) fuel).map (fun i => min (2 ^ i) 60)⟩ := by
  intro fuel
  induction fuel with
  | zero =>
    intro retries
    simp [connectLoop]
  | succ n ih =>
    intro retries
    unfold connectLoop
    rw [if_neg (by simp), if_neg (by simp), if_neg (by simp), if_pos (Or.inr rfl)]
    rw [ih (retries + 1)]
    rw [List.range'_succ]
    simp

/-- C4: the retry policy of `connect`.  (i) An initial connect (isReconnect
false) always returns within `maxRetries + 1` loop iterations, and (ii)
makes at most `maxRetries` connection attempts, whatever the environment
does.  (iii) If every attempt fails and the session is not closing, the
initial connect makes exactly `maxRetries` attempts, waits
`min(2 ** i, 60)` seconds between consecutive attempts (i = 1, …,
maxRetries − 1: exponential backoff capped at 60 s), and returns failure
permanently.  (iv) A reconnect (isReconnect true) with every attempt
failing and the session never closing has not returned after any number of
iterations, keeps making one attempt per iteration, and sleeps the same
capped exponential backoff between consecutive attempts.  (v) A reconnect
stops with failure as soon as the session is observed closing. -/
theorem connect_retry_policy :
    (∀ (m : Nat) (closing attemptOk : Nat → Bool),
        ((connectLoop false m closing attemptOk (m + 1) 0).result).isSome = true)
    ∧ (∀ (m : Nat) (closing attemptOk : Nat → Bool) (fuel : Nat),
        (connectLoop false m closing attemptOk fuel 0).attempts ≤ m)
    ∧ (∀ (m fuel : Nat), 0 < m → m ≤ fuel →
        connectLoop false m (fun _ => false) (fun _ => false) fuel 0
          = ⟨some false, m, (List.range' 1 (m - 1)).map (fun i => min (2 ^ i) 60)⟩)
    ∧ (∀ (m fuel : Nat),
        connectLoop true m (fun _ => false) (fun _ => false) fuel 0
          = ⟨none, fuel, (List.range' 1 fuel).map (fun i => min (2 ^ i) 60)⟩)
    ∧ (∀ (m fuel retries : Nat) (closing attemptOk : Nat → Bool), closing retries = true →
        connectLoop true m closing attemptOk (fuel + 1) retries = ⟨some false, 0, []⟩) := by
  refine ⟨?_, ?_, ?_, ?_, ?_⟩
  · intro m closing attemptOk
    exact connectLoop_initial_terminates m closing attemptOk m 0 (by omega)
  · intro m closing attemptOk fuel
    have := connectLoop_initial_attempts m closing attemptOk fuel 0 (by omega)
    omega
  · intro m fuel h1 h2
    have := connectLoop_initial_allfail m fuel 0 h1 (by omega)
    simpa using this
  · intro m fuel
    simpa using connectLoop_reconnect_allfail m fuel 0
  · intro m fuel retries closing attemptOk hclosing
    unfold connectLoop
    rw [if_neg (by simp), if_pos hclosing]

theorem connect_retry_policy_witness :
    (0 < 5 ∧ 5 ≤ 6
      ∧ connectLoop false 5 (fun _ => false) (fun _ => false) 6 0
          = ⟨some false, 5, (List.range' 1 (5 - 1)).map (fun i => min (2 ^ i) 60)⟩)
    ∧ ((fun _ => true : Nat → Bool) 0 = true
      ∧ connectLoop true 5 (fun _ => true) (fun _ => false) (3 + 1) 0 = ⟨some false, 0, []⟩) :=
  ⟨⟨by decide, by decide, connect_retry_policy.2.2.1 5 6 (by decide) (by decide)⟩,
   ⟨rfl, connect_retry_policy.2.2.2.2 5 3 0 (fun _ => true) (fun _ => false) rfl⟩⟩

/-! ### Plugin lifecycle (src/core/plugin_manager.py) -/

/-- Python `s.endswith(suf)`. -/
def pyEndsWith (s suf : String) : Bool :=
  suf.data.reverse.isPrefixOf s.data.reverse

/-- Python `s[:-n]`. -/
def pyDropRight (s : String) (n : Nat) : String :=
  ⟨s.data.take (s.data.length - n)⟩

/-- One entry of the plugin storage directory as the manager observes it:
its on-disk name, whether it is a directory, whether a directory entry
contains the `setup.py` entrypoint, whether the module exposes the required
trigger metadata, whether executing the module raises, and the priority
metadata it declares. -/
structure DiskEntry where
  name : String
  isDir : Bool
  hasSetup : Bool
  hasTrigger : Bool
  loadRaises : Bool
  priority : Int
deriving DecidableEq, Repr

/-- Embedding of the candidate scan of `load_plugins`
(src/core/plugin_manager.py, lines 84-108): an entry whose name ends in
`.py` and does not start with `_` is a file candidate unless it carries the
`d_` disabled marker; otherwise a directory not starting with `_` and not
`d_`-marked is a candidate when it has `setup.py`.  The derived plugin name
strips the suffix.  `none` means the entry contributes no load
candidate. -/
def candidateOf (e : DiskEntry) : Option (String × DiskEntry) :=
  if pyEndsWith e.name ".py" ∧ ¬ pyStartsWith e.name "_" then
    if pyStartsWith e.name "d_" then none
    else some (pyDropRight e.name 3, e)
  else if e.isDir ∧ ¬ pyStartsWith e.name "_" then
    if pyStartsWith e.name "d_" then none
    else if e.hasSetup then some (e.name, e)
    else none
  else none

/-- Embedding of the load pass of `load_plugins` (lines 110-162): a
candidate whose module raises on execution, or lacks the trigger metadata,
is recorded as a load failure; otherwise it is loaded with its priority. -/
def loadCandidates : List (String × DiskEntry) → List (String × Int) × List String
  | [] => ([], [])
  | (name, e) :: rest =>
    let r := loadCandidates rest
    if e.loadRaises then (r.1, name :: r.2)
    else if ¬ e.hasTrigger then (r.1, name :: r.2)
    else ((name, e.priority) :: r.1, r.2)

/-- Stable insertion sort by priority for the loaded-plugins dict, as in
`_sort_plugins_by_priority`. -/
def insertLoaded (p : String × Int) : List (String × Int) → List (String × Int)
  | [] => [p]
  | q :: rest => if p.2 ≤ q.2 then p :: q :: rest else q :: insertLoaded p rest

def sortLoaded : List (String × Int) → List (String × Int)
  | [] => []
  | p :: rest => insertLoaded p (sortLoaded rest)

/-- Embedding of `load_plugins` (lines 75-165): scan, load, sort. -/
def loadPlugins (entries : List DiskEntry) : List (String × Int) × List String :=
  let c := loadCandidates (entries.filterMap candidateOf)
  (sortLoaded c.1, c.2)

/-- Embedding of `initialize_file_timestamps` (lines 46-54): the files whose
modification time is snapshotted (and, identically filtered in
`monitor_plugin_files`, watched): plain files ending in `.py` and not
starting with `_`. -/
def watchedFiles (entries : List DiskEntry) : List String :=
  (entries.filter
    (fun e => pyEndsWith e.name ".py" && !(pyStartsWith e.name "_") && !e.isDir)).map
    (fun e => e.name)

/-- The status tag `get_plugin_list` reports for an enabled-on-disk name. -/
inductive ListedStatus where
  | loadedOk
  | loadFailed
  | notLoaded
deriving DecidableEq, Repr

/-- The (derived name, enabled-on-disk) pair an entry contributes to the
`get_plugin_list` report, or `none` if it is not listed (lines 366-384). -/
def listingName (e : DiskEntry) : Option (String × Bool) :=
  if pyEndsWith e.name ".py" ∧ ¬ pyStartsWith e.name "_" then
    if pyStartsWith e.name "d_" then some (pyDropRight (pyDrop e.name 2) 3, false)
    else some (pyDropRight e.name 3, true)
  else if e.isDir ∧ ¬ pyStartsWith e.name "_" then
    if ¬ e.hasSetup then none
    else if pyStartsWith e.name "d_" then some (pyDrop e.name 2, false)
    else some (e.name, true)
  else none

/-- Embedding of `get_plugin_list` (lines 360-420): the enabled-on-disk
bucket, each name tagged with its in-memory load status, and the
disabled-on-disk bucket. -/
def getPluginList (loaded failed : List String) :
    List DiskEntry → List (String × ListedStatus) × List String
  | [] => ([], [])
  | e :: rest =>
    let r := getPluginList loaded failed rest
    match listingName e with
    | none => r
    | some (n, true) =>
        let s := if loaded.contains n then ListedStatus.loadedOk
                 else if failed.contains n then ListedStatus.loadFailed
                 else ListedStatus.notLoaded
        ((n, s) :: r.1, r.2)
    | some (n, false) => (r.1, n :: r.2)

/-- The manager state the enable/disable operations act on: the storage
directory entries, the loaded-plugins dict (name and priority), the load
failures, and a counter of `reload_plugins` invocations. -/
structure PMState where
  entries : List DiskEntry
  loaded : List (String × Int)
  failed : List String
  reloads : Nat
deriving DecidableEq, Repr

/-- Embedding of `reload_plugins` (lines 244-271): the in-memory registry is
cleared and rebuilt from disk by `load_plugins`. -/
def reloadPlugins (st : PMState) : PMState :=
  { st with
    loaded := (loadPlugins st.entries).1
    failed := (loadPlugins st.entries).2
    reloads := st.reloads + 1 }

/-- `os.path.exists(plugins/<n>)`. -/
def existsEntry (st : PMState) (n : String) : Bool :=
  st.entries.any (fun e => e.name == n)

/-- `os.rename` within the plugin directory. -/
def renameEntry (st : PMState) (old new : String) : PMState :=
  { st with
    entries := st.entries.map (fun e => if e.name == old then { e with name := new } else e) }

/-- Embedding of `enable_plugin` (src/core/plugin_manager.py, lines
273-319). -/
def enablePlugin (st : PMState) (name : String) : Bool × PMState :=
  if existsEntry st (name ++ ".py") || existsEntry st name then
    if (st.loaded.map Prod.fst).contains name then (true, st)
    else
      let st' := reloadPlugins st
      (((st'.loaded.map Prod.fst).contains name), st')
  else if existsEntry st ("d_" ++ name ++ ".py") then
    (true, reloadPlugins (renameEntry st ("d_" ++ name ++ ".py") (name ++ ".py")))
  else if existsEntry st ("d_" ++ name) then
    (true, reloadPlugins (renameEntry st ("d_" ++ name) name))
  else (false, st)

/-- Embedding of `disable_plugin` (src/core/plugin_manager.py, lines
321-358). -/
def disablePlugin (st : PMState) (name : String) : Bool × PMState :=
  if existsEntry st ("d_" ++ name ++ ".py") || existsEntry st ("d_" ++ name) then
    (true, reloadPlugins st)
  else if existsEntry st (name ++ ".py") then
    (true, reloadPlugins (renameEntry st (name ++ ".py") ("d_" ++ name ++ ".py")))
  else if existsEntry st name then
    (true, reloadPlugins (renameEntry st name ("d_" ++ name)))
  else (false, st)

/-! ### Underscore entries are invisible (C10) -/

/-- The entries the core does not hide: names not starting with `_`. -/
def keepVisible (e : DiskEntry) : Bool :=
  !(pyStartsWith e.name "_")

theorem filterMap_eq_filterMap_filter {α β : Type _} (g : α → Option β) (p : α → Bool)
    (hg : ∀ a, p a = false → g a = none) (l : List α) :
    l.filterMap g = (l.filter p).filterMap g := by
  induction l with
  | nil => rfl
  | cons x xs ih =>
    by_cases hx : p x
    · rw [List.filter_cons_of_pos hx, List.filterMap_cons, List.filterMap_cons, ih]

    · rw [List.filter_cons_of_neg (by simpa using hx), List.filterMap_cons,
        hg x (by simpa using hx), ih]

theorem filter_eq_filter_filter {α : Type _} (q p : α → Bool)
    (h : ∀ a, p a = false → q a = false) (l : List α) :
    l.filter q = (l.filter p).filter q := by
  induction l with
  | nil => rfl
  | cons x xs ih =>
    by_cases hx : p x
    · rw [List.filter_cons_of_pos hx]
      simp only [List.filter_cons, ih]
    · have hq : q x = false := h x (by simpa using hx)
      rw [List.filter_cons_of_neg (by simp [hq]),
        List.filter_cons_of_neg (by simpa using hx)]
      exact ih

theorem keepVisible_false (e : DiskEntry) (h : keepVisible e = false) :
    pyStartsWith e.name "_" = true := by
  unfold keepVisible at h
  rcases hb : pyStartsWith e.name "_" with _ | _
  · rw [hb] at h
    simp at h
  · rfl

theorem candidateOf_underscore (e : DiskEntry) (h : keepVisible e = false) :
    candidateOf e = none := by
  have hu := keepVisible_false e h
  unfold candidateOf
  rw [if_neg (by simp [hu]), if_neg (by simp [hu])]

theorem listingName_underscore (e : DiskEntry) (h : keepVisible e = false) :
    listingName e = none := by
  have hu := keepVisible_false e h
  unfold listingName
  rw [if_neg (by simp [hu]), if_neg (by simp [hu])]

/-- C10: an entry of the plugin directory whose name begins with an
underscore is completely ignored: discovery/loading (`load_plugins`), the
snapshot listing (`get_plugin_list`) and the modification-time watch list
(`initialize_file_timestamps` / `monitor_plugin_files`) all give exactly
the same result as if the entry were absent, so it is never loaded, never
recorded as a load failure or as disabled-on-disk, and never watched. -/
theorem underscore_entries_ignored (entries : List DiskEntry) (loaded failed : List String) :
    loadPlugins entries = loadPlugins (entries.filter keepVisible)
    ∧ getPluginList loaded failed entries
        = getPluginList loaded failed (entries.filter keepVisible)
    ∧ watchedFiles entries = watchedFiles (entries.filter keepVisible) := by
  refine ⟨?_, ?_, ?_⟩
  · unfold loadPlugins
    rw [filterMap_eq_filterMap_filter candidateOf keepVisible candidateOf_underscore entries]
  · induction entries with
    | nil => rfl
    | cons e rest ih =>
      by_cases he : keepVisible e
      · rw [List.filter_cons_of_pos he]
        unfold getPluginList
        rw [ih]
      · rw [List.filter_cons_of_neg (by simpa using he)]
        have hln := listingName_underscore e (by simpa using he)
        conv_lhs => rw [getPluginList, hln]
        exact ih
  · unfold watchedFiles
    rw [← filter_eq_filter_filter _ keepVisible ?_ entries]
    intro a ha
    have hu := keepVisible_false a ha
    simp [hu]

/-! ### Idempotent enable/disable (C6) -/

/-- An enabled, loadable plugin file `foo.py`. -/
def fooEntry : DiskEntry :=
  ⟨"foo.py", false, false, true, false, 999⟩

/-- A manager state in which `foo` is enabled on disk and currently
loaded. -/
def pmLoadedState : PMState :=
  ⟨[fooEntry], [("foo", 999)], [], 0⟩

/-- C6 counterexample: calling `enable_plugin` on a plugin that is already
enabled on disk and currently loaded returns success without performing any
reload: the state (including the reload counter) is unchanged, whereas the
claim requires a full reload to have happened. -/
theorem enable_skips_reload_when_loaded :
    enablePlugin pmLoadedState "foo" = (true, pmLoadedState)
    ∧ (enablePlugin pmLoadedState "foo").2.reloads = 0
    ∧ (enablePlugin pmLoadedState "foo").2.reloads ≠ pmLoadedState.reloads + 1 := by
  refine ⟨by decide, by decide, by decide⟩

/-- C6 (amended): `disable_plugin` on a unit already disabled on disk
succeeds and still performs a full reload (normalizing the in-memory
registry with disk); `enable_plugin` on a unit already enabled on disk and
currently loaded returns success without reloading (state unchanged);
`enable_plugin` on a unit already enabled on disk but not currently loaded
performs a full reload and reports success exactly when the unit is loaded
afterwards. -/
theorem enable_disable_idempotent (st : PMState) (name : String) :
    ((existsEntry st ("d_" ++ name ++ ".py") || existsEntry st ("d_" ++ name)) = true →
       disablePlugin st name
         = (true, { st with
                    loaded := (loadPlugins st.entries).1
                    failed := (loadPlugins st.entries).2
                    reloads := st.reloads + 1 }))
    ∧ ((existsEntry st (name ++ ".py") || existsEntry st name) = true →
        (st.loaded.map Prod.fst).contains name = true →
        enablePlugin st name = (true, st))
    ∧ ((existsEntry st (name ++ ".py") || existsEntry st name) = true →
        (st.loaded.map Prod.fst).contains name = false →
        enablePlugin st name
          = (((loadPlugins st.entries).1.map Prod.fst).contains name,
             { st with
               loaded := (loadPlugins st.entries).1
               failed := (loadPlugins st.entries).2
               reloads := st.reloads + 1 })) := by
  refine ⟨?_, ?_, ?_⟩
  · intro h
    unfold disablePlugin
    rw [if_pos h]
    rfl
  · intro h1 h2
    unfold enablePlugin
    rw [if_pos h1, if_pos h2]
  · intro h1 h2
    unfold enablePlugin
    rw [if_pos h1, if_neg (by rw [h2]; simp)]
    rfl

/-- A manager state in which `foo` is disabled on disk. -/
def pmDisabledState : PMState :=
  ⟨[⟨"d_foo.py", false, false, true, false, 999⟩], [], [], 0⟩

/-- A manager state in which `foo` is enabled on disk but not loaded. -/
def pmUnloadedState : PMState :=
  ⟨[fooEntry], [], [], 0⟩

theorem enable_disable_idempotent_witness :
    ((existsEntry pmDisabledState ("d_" ++ "foo" ++ ".py")
        || existsEntry pmDisabledState ("d_" ++ "foo")) = true
      ∧ disablePlugin pmDisabledState "foo"
          = (true, { pmDisabledState with
                     loaded := (loadPlugins pmDisabledState.entries).1
                     failed := (loadPlugins pmDisabledState.entries).2
                     reloads := pmDisabledState.reloads + 1 }))
    ∧ ((existsEntry pmLoadedState ("foo" ++ ".py") || existsEntry pmLoadedState "foo") = true
      ∧ (pmLoadedState.loaded.map Prod.fst).contains "foo" = true
      ∧ enablePlugin pmLoadedState "foo" = (true, pmLoadedState))
    ∧ ((existsEntry pmUnloadedState ("foo" ++ ".py") || existsEntry pmUnloadedState "foo") = true
      ∧ (pmUnloadedState.loaded.map Prod.fst).contains "foo" = false
      ∧ enablePlugin pmUnloadedState "foo"
          = (((loadPlugins pmUnloadedState.entries).1.map Prod.fst).contains "foo",
             { pmUnloadedState with
               loaded := (loadPlugins pmUnloadedState.entries).1
               failed := (loadPlugins pmUnloadedState.entries).2
               reloads := pmUnloadedState.reloads + 1 })) :=
  ⟨⟨by decide, (enable_disable_idempotent pmDisabledState "foo").1 (by decide)⟩,
   ⟨by decide, by decide, (enable_disable_idempotent pmLoadedState "foo").2.1 (by decide) (by decide)⟩,
   ⟨by decide, by decide, (enable_disable_idempotent pmUnloadedState "foo").2.2 (by decide) (by decide)⟩⟩

end LunarX
